import Mathlib

/-!
# Hybrid: the chat controller of `static/script.js`

A shallow embedding of the two event handlers of `static/script.js` (the form
`submit` handler and the `generate-site-btn` `click` handler) together with the
three DOM helpers `addMessage`, `addLoadingBubble`, `removeLoadingBubble`.

Modelling conventions.

* JavaScript strings are Lean `String`s (sequences of Unicode scalar values).
* A value produced by `res.json()` is a `Json`; `undefined` is `none` in an
  `Option Json`.  A number is carried by its `Number::toString` rendering.
* A thrown exception is `none` / an `Option String` holding `err.message`.  The
  text of an engine-raised `TypeError` is not fixed by the script and is an
  argument of the event that may raise it.
* `chatBox` is the ordered list of the children the script appended; the
  `innerHTML` of a child is kept as markup text.
* What the browser does with values the script hands to it is not in the
  script and is a parameter, `Browser`: whether the HTML parser finds an
  element with id `loading` inside the markup of an entry (form values and
  advice text are interpolated into `innerHTML` unescaped), and whether
  `window.open` rejects its argument.
* The two `await`s of a handler (`fetch`, then `res.json()`) are one settle
  event: the handler changes nothing between them.
* Network calls and `window.open` are recorded in trace fields of the state.
-/

namespace Hybrid

/-! ## JavaScript values -/

/-- A value as produced by `JSON.parse` / `res.json()`.  An object is the list of
its own properties, keys distinct. A number is carried by the text that
`String(n)` yields for it. -/
inductive Json where
  | null : Json
  | bool (b : Bool) : Json
  | num (text : String) : Json
  | str (s : String) : Json
  | arr (items : List Json) : Json
  | obj (fields : List (String × Json)) : Json

/-- Own-property lookup in the property list of an object. -/
def lookupField (key : String) : List (String × Json) → Option Json
  | [] => none
  | (k, v) :: rest => if k = key then some v else lookupField key rest

/-- Whether an object has an own property `key`. -/
def hasField (key : String) : List (String × Json) → Bool
  | [] => false
  | (k, _) :: rest => if k = key then true else hasField key rest

/-- JavaScript truthiness (`!v` is its negation).  `null`, `false`, `0`, `-0`
and `""` are falsy; every array and object is truthy. -/
def truthy : Json → Bool
  | .null => false
  | .bool b => b
  | .num text => text != "0"
  | .str s => s != ""
  | .arr _ => true
  | .obj _ => true

/-- Property read `v.key` for a key that no built-in prototype defines (all keys
read by the script are such).  `none` is the `TypeError` raised when `v` is
`null`; `some none` is `undefined`. -/
def getProp (v : Json) (key : String) : Option (Option Json) :=
  match v with
  | .null => none
  | .obj fields => some (lookupField key fields)
  | _ => some none

/-- Property read on a value that may be `undefined`: reading a property of
`undefined` raises a `TypeError`. -/
def getPropU (v : Option Json) (key : String) : Option (Option Json) :=
  match v with
  | none => none
  | some j => getProp j key

/-- Glue already converted pieces with a separator, as `Array.prototype.join`
does after converting each element. -/
def joinWith (sep : String) : List String → String
  | [] => ""
  | [x] => x
  | x :: y :: rest => x ++ sep ++ joinWith sep (y :: rest)

mutual
/-- The abstract operation `ToString` on a parsed value; `none` is a `TypeError`
(an object whose own `toString` property shadows the built-in one cannot
be converted to a primitive). -/
def jsToString : Json → Option String
  | .null => some "null"
  | .bool b => some (if b then "true" else "false")
  | .num text => some text
  | .str s => some s
  | .arr items => (jsJoinPieces items).map (joinWith ",")
  | .obj fields => if hasField "toString" fields then none else some "[object Object]"
/-- The element conversions of `Array.prototype.join`: `null` becomes the empty
string, any other element is converted with `ToString`. -/
def jsJoinPieces : List Json → Option (List String)
  | [] => some []
  | x :: rest =>
    match (match x with
      | .null => some ""
      | y => jsToString y), jsJoinPieces rest with
    | some p, some ps => some (p :: ps)
    | _, _ => none
end

/-- The call `items.join(sep)` on an array of parsed values. -/
def jsJoin (sep : String) (items : List Json) : Option String :=
  (jsJoinPieces items).map (joinWith sep)

/-- A template-literal substitution of a value that may be `undefined`. -/
def templ : Option Json → Option String
  | none => some "undefined"
  | some j => jsToString j

/-! ## String operations used by the script -/

/-- The characters removed by `String.prototype.trim`: ECMAScript `WhiteSpace`
(tab, vertical tab, form feed, space, no-break space, the byte order mark and
the Unicode space separators) and `LineTerminator`. -/
def jsIsWhitespace (c : Char) : Bool :=
  c.val = 0x09 || c.val = 0x0A || c.val = 0x0B || c.val = 0x0C || c.val = 0x0D ||
  c.val = 0x20 || c.val = 0xA0 || c.val = 0x1680 ||
  (0x2000 ≤ c.val && c.val ≤ 0x200A) ||
  c.val = 0x2028 || c.val = 0x2029 || c.val = 0x202F || c.val = 0x205F ||
  c.val = 0x3000 || c.val = 0xFEFF

/-- The call `s.trim()` on the characters of `s`: drop the leading and the
trailing run of whitespace. -/
def trimChars (cs : List Char) : List Char :=
  ((cs.dropWhile jsIsWhitespace).reverse.dropWhile jsIsWhitespace).reverse

/-- The call `s.trim()`. -/
def jsTrim (s : String) : String := String.mk (trimChars s.data)

/-- The call `s.split(",")` on the characters of `s`: the pieces between
consecutive commas; the empty string gives one empty piece. -/
def splitCommaChars : List Char → List (List Char)
  | [] => [[]]
  | c :: cs =>
    if c = ',' then [] :: splitCommaChars cs
    else
      match splitCommaChars cs with
      | [] => [[c]]
      | p :: ps => (c :: p) :: ps

/-- The call `s.split(",")`. -/
def jsSplitComma (s : String) : List String :=
  (splitCommaChars s.data).map String.mk

/-- The call `s.replace(/\n/g, "<br>")`: every line feed becomes `<br>`. -/
def replaceNewlines (s : String) : String :=
  String.mk (s.data.flatMap fun c => if c = '\n' then "<br>".data else [c])

/-- Truthiness of a string, the predicate of `.filter((c) => c)`. -/
def strTruthy (s : String) : Bool := s.length != 0

/-- The competitors expression of the submit handler:
`value.split(",").map((c) => c.trim()).filter((c) => c)`. -/
def collectCompetitors (field : String) : List String :=
  ((jsSplitComma field).map jsTrim).filter strTruthy

/-- The cutting step of the specification's wording: walk the field from the
left, close the current piece at every comma, and close the last piece at the
end of the field. `cur` holds the current piece, newest character first. -/
def specCut (cur : List Char) : List Char → List (List Char)
  | [] => [cur.reverse]
  | c :: cs => if c = ',' then cur.reverse :: specCut [] cs else specCut (c :: cur) cs

/-- The behaviour the specification words for the competitors field: cut the
field at every comma, trim each piece, and keep, in order, the pieces that are
not empty after trimming. -/
def specCompetitors (field : String) : List String :=
  ((specCut [] field.data).map fun piece => String.mk (trimChars piece)).filter
    (fun t => t ≠ "")

/-! ## The page state -/

/-- The object stored in `lastUserInput` and sent as the advice request body. -/
structure UserInput where
  industry : String
  style : String
  goals : String
  competitors : List String
  projectDescriptions : String
  deriving DecidableEq

/-- The object literal `payload` of the click handler.  The three fields read
from `lastAIResponse` may be `undefined`. -/
structure BuildPayload where
  industry : String
  style : String
  goals : String
  competitors : List String
  project_descriptions : String
  ai_copy : Option Json
  seo_tips : Option Json
  design_guidelines : Option Json
  theme : String

/-- A child of `chatBox`: a `div` with classes `message` and `sender`, the id
`loading` when `loadingId` holds, and the given `innerHTML`. -/
structure Message where
  sender : String
  loadingId : Bool
  content : String
  deriving DecidableEq

/-- The values of the form controls read by the submit handler. -/
structure FormValues where
  industry : String
  goals : String
  theme : String
  projectDescriptions : String
  competitors : String
  deriving DecidableEq

/-- The script's variables and the part of the page it writes, followed by the
trace of its calls to the outside (`fetch`, `window.open`). -/
structure State where
  /-- Whether `form.dataset.submitting === "true"`. -/
  submitting : Bool
  lastUserInput : Option UserInput
  /-- The variable `lastAIResponse`; initially `null`. -/
  lastAIResponse : Json
  /-- The children of `chatBox`, first to last. -/
  chatBox : List Message
  /-- Whether `generateBtn.style.display` was set to `"block"`. -/
  generateBtnShown : Bool
  /-- Bodies of the advice requests issued so far, oldest first. -/
  adviceRequests : List UserInput
  /-- Advice requests issued and not yet settled, oldest first. -/
  adviceInFlight : List UserInput
  /-- Advice requests whose handler ran its `try` block to the end. -/
  adviceSucceeded : List UserInput
  /-- Bodies of the build requests issued so far, oldest first. -/
  buildRequests : List BuildPayload
  /-- Number of build requests issued and not yet settled. -/
  buildInFlight : Nat
  /-- Arguments of the `window.open` calls so far, oldest first. -/
  opened : List (Option Json)

/-- The state after the script's top level has run: both variables `null`, no
message, nothing requested. -/
def State.init : State where
  submitting := false
  lastUserInput := none
  lastAIResponse := .null
  chatBox := []
  generateBtnShown := false
  adviceRequests := []
  adviceInFlight := []
  adviceSucceeded := []
  buildRequests := []
  buildInFlight := 0
  opened := []

/-! ## The browser -/

/-- The behaviour of the browser that the script's effects depend on.

`removeLoadingIn markup` is what `document.getElementById("loading")` followed
by `.remove()` does inside an entry whose `innerHTML` was set to `markup`:
`none` when the parsed markup holds no element with id `loading`, and
`some rest` when it holds one, `rest` being the entry's markup once the first
such element is removed.

`openThrows url` is the message of the exception that `window.open(url,
"_blank")` raises (a `SyntaxError` when `url` does not parse as a URL), `none`
when the call returns. -/
structure Browser where
  removeLoadingIn : String → Option String
  openThrows : Option Json → Option String

/-! ## The DOM helpers -/

/-- The function `addMessage(content, sender)`: append a `div.message.sender`. -/
def addMessage (chatBox : List Message) (content sender : String) : List Message :=
  chatBox ++ [{ sender := sender, loadingId := false, content := content }]

/-- The function `addLoadingBubble()`: append the `div#loading.message.bot`. -/
def addLoadingBubble (chatBox : List Message) : List Message :=
  chatBox ++ [{ sender := "bot", loadingId := true, content := "💭 Thinking..." }]

/-- The function `removeLoadingBubble()`: remove the first element, in document
order, whose id is `loading`, if there is one.  An entry comes before the
elements parsed from its own markup, and both come before the next entry: the
search stops at the first entry that is a loading bubble (the whole entry goes)
or whose markup holds an element with that id (that element goes, the entry
stays with the rest of its markup).  The page outside `chatBox` is taken not to
use the id. -/
def removeLoadingBubble (b : Browser) : List Message → List Message
  | [] => []
  | m :: ms =>
    if m.loadingId then ms
    else
      match b.removeLoadingIn m.content with
      | some rest => { m with content := rest } :: ms
      | none => m :: removeLoadingBubble b ms

/-! ## Outcomes of a request -/

/-- How `fetch` followed by `res.json()` ends.  `transportFailure msg`: the
`fetch` promise rejects with an error of message `msg`.  `response status body`:
a response with that status arrived, and `res.json()` either rejects with a
message (`Except.error`) or yields the parsed body (`Except.ok`). -/
inductive FetchOutcome where
  | transportFailure (msg : String) : FetchOutcome
  | response (status : Nat) (body : Except String Json) : FetchOutcome

/-- The getter `res.ok`: the status is in the range 200 to 299. -/
def statusOk (status : Nat) : Bool := 200 ≤ status && status ≤ 299

/-! ## The submit handler -/

/-- The template literal `userMessage`. -/
def userMessage (industry style goals projectDescriptions : String) : String :=
  "\n    Industry: <strong>" ++ industry ++ "</strong><br>\n    Theme: <strong>" ++ style ++
  "</strong><br>\n    Goals: <strong>" ++ goals ++ "</strong>\n    Projects: <strong>" ++
  projectDescriptions ++ "</strong><br>\n  "

/-- The synchronous part of the submit handler, up to the `fetch` call.  With
the guard set it returns at once; otherwise it sets the guard, reads the form,
assigns `lastUserInput`, appends the user message and the loading bubble, and
issues the advice request with `lastUserInput` as its body. -/
def submitStart (s : State) (f : FormValues) : State :=
  if s.submitting then s
  else
    let input : UserInput :=
      { industry := f.industry, style := f.theme, goals := f.goals,
        competitors := collectCompetitors f.competitors,
        projectDescriptions := f.projectDescriptions }
    { s with
      submitting := true
      lastUserInput := some input
      chatBox := addLoadingBubble
        (addMessage s.chatBox (userMessage f.industry f.theme f.goals f.projectDescriptions) "user")
      adviceRequests := s.adviceRequests ++ [input]
      adviceInFlight := s.adviceInFlight ++ [input] }

/-- The expression `data.copywriting.replace(/\n/g, "<br>")`; `none` is a
`TypeError` (`data` is `null`, or `copywriting` is not a string). -/
def copywritingHtml (data : Json) : Option String :=
  match getProp data "copywriting" with
  | some (some (.str s)) => some (replaceNewlines s)
  | _ => none

/-- The expression `data.seo_tips.recommended_keywords.join(", ")`; `none` is a
`TypeError`. -/
def keywordsHtml (data : Json) : Option String :=
  match getProp data "seo_tips" with
  | some tips =>
    match getPropU tips "recommended_keywords" with
    | some (some (.arr items)) => jsJoin ", " items
    | _ => none
  | none => none

/-- The callback results of `.map((g) => ...)` with the bullet template; `none`
is a `TypeError` raised while converting an element. -/
def bulletPieces : List Json → Option (List String)
  | [] => some []
  | g :: rest =>
    match jsToString g, bulletPieces rest with
    | some t, some ts => some (("• " ++ t) :: ts)
    | _, _ => none

/-- The expression `data.design_guidelines.map(...).join("<br>")`; `none` is a
`TypeError`. -/
def guidelinesHtml (data : Json) : Option String :=
  match getProp data "design_guidelines" with
  | some (some (.arr items)) => (bulletPieces items).map (joinWith "<br>")
  | _ => none

/-- The template literal `botMessage`, its substitutions evaluated left to
right; `none` when one of them raises a `TypeError`. -/
def botMessage (data : Json) : Option String :=
  match copywritingHtml data with
  | none => none
  | some cw =>
    match keywordsHtml data with
    | none => none
    | some kw =>
      match guidelinesHtml data with
      | none => none
      | some dg =>
        some ("\n      <strong>📋 Copywriting Advice:</strong><br>" ++ cw ++
          "<br><br>\n      <strong>🔍 SEO Tips:</strong> " ++ kw ++
          "<br>\n      <strong>🎨 Design Guidelines:</strong><br>\n      " ++ dg ++ "\n    ")

/-- The `try` block of the submit handler after the request settled.  Returns
the state at the point where the block is left and, when it is left by an
exception, that exception's message.  `typeErr` is the message of the
`TypeError` the engine raises while `botMessage` is evaluated. `req` is the
request being settled (trace only). -/
def adviceTry (b : Browser) (s : State) (req : UserInput) (o : FetchOutcome)
    (typeErr : String) : State × Option String :=
  match o with
  | .transportFailure msg => (s, some msg)
  | .response status body =>
    if !statusOk status then (s, some ("Server error: " ++ toString status))
    else
      match body with
      | .error msg => (s, some msg)
      | .ok data =>
        let s1 := { s with chatBox := removeLoadingBubble b s.chatBox }
        let s2 := { s1 with lastAIResponse := data }
        match botMessage data with
        | none => (s2, some typeErr)
        | some m =>
          ({ s2 with
              chatBox := addMessage s2.chatBox m "bot"
              generateBtnShown := true
              adviceSucceeded := s2.adviceSucceeded ++ [req] }, none)

/-- The `catch` block of the submit handler. -/
def adviceCatch (b : Browser) (s : State) (msg : String) : State :=
  { s with chatBox := addMessage (removeLoadingBubble b s.chatBox) ("❌ Error: " ++ msg) "bot" }

/-- The `finally` block of the submit handler. -/
def adviceFinally (s : State) : State :=
  { s with submitting := false }

/-- The rest of the submit handler, run when the oldest advice request in
flight settles: `try`, then `catch` if an exception left it, then `finally`.
`none` when no advice request is in flight. -/
def adviceSettle (b : Browser) (s : State) (o : FetchOutcome) (typeErr : String) :
    Option State :=
  match s.adviceInFlight with
  | [] => none
  | req :: rest =>
    let s0 := { s with adviceInFlight := rest }
    match adviceTry b s0 req o typeErr with
    | (s1, none) => some (adviceFinally s1)
    | (s1, some msg) => some (adviceFinally (adviceCatch b s1 msg))

/-! ## The click handler of the generate button -/

/-- The object literal `payload`, for the retained input `u`, the retained
response `a` and the theme read from the selector.  The handler builds it only
for a truthy `a`, on which a property read cannot throw; a property that is not
there reads as `undefined`. -/
def buildPayload (u : UserInput) (a : Json) (theme : String) : BuildPayload where
  industry := u.industry
  style := theme
  goals := u.goals
  competitors := u.competitors
  project_descriptions := u.projectDescriptions
  ai_copy := (getProp a "copywriting").join
  seo_tips := (getProp a "seo_tips").join
  design_guidelines := (getProp a "design_guidelines").join
  theme := theme

/-- The own properties of `payload`, in the order of the object literal; a
property whose value is `undefined` is there with the value `none`. -/
def payloadProps (p : BuildPayload) : List (String × Option Json) :=
  [("industry", some (.str p.industry)),
   ("style", some (.str p.style)),
   ("goals", some (.str p.goals)),
   ("competitors", some (.arr (p.competitors.map Json.str))),
   ("project_descriptions", some (.str p.project_descriptions)),
   ("ai_copy", p.ai_copy),
   ("seo_tips", p.seo_tips),
   ("design_guidelines", p.design_guidelines),
   ("theme", some (.str p.theme))]

/-- The value that the text `JSON.stringify(obj)` denotes, for an object given
by its properties: the properties in order, those whose value is `undefined`
left out. -/
def jsonStringify : List (String × Option Json) → List (String × Json)
  | [] => []
  | (k, some v) :: rest => (k, v) :: jsonStringify rest
  | (_, none) :: rest => jsonStringify rest

/-- The body of the build request, `JSON.stringify(payload)`, as the value the
build service parses. -/
def payloadBody (p : BuildPayload) : Json :=
  .obj (jsonStringify (payloadProps p))

/-- The warning of the precondition check. -/
def noResponseWarning : String :=
  "⚠️ No AI response to generate site from. Run the assistant first."

/-- The synchronous part of the click handler, up to the `fetch` call. -/
def buildClick (s : State) (theme : String) : State :=
  match s.lastUserInput with
  | none => { s with chatBox := addMessage s.chatBox noResponseWarning "bot" }
  | some u =>
    if !truthy s.lastAIResponse then
      { s with chatBox := addMessage s.chatBox noResponseWarning "bot" }
    else
      { s with
        chatBox := addMessage s.chatBox "🛠️ Building your site..." "bot"
        buildRequests := s.buildRequests ++ [buildPayload u s.lastAIResponse theme]
        buildInFlight := s.buildInFlight + 1 }

/-- The text of the success entry for the value read from `json.site_url`;
`none` when the substitution raises a `TypeError`. -/
def siteMessage (url : Option Json) : Option String :=
  (templ url).map fun t =>
    "✅ Site generated: <a href=\"" ++ t ++ "\" target=\"_blank\">Open site</a>"

/-- The `catch` block of the click handler. -/
def buildCatch (s : State) (msg : String) : State :=
  { s with chatBox := addMessage s.chatBox ("❌ Error generating site: " ++ msg) "bot" }

/-- The rest of the click handler, run when a build request settles; `none`
when no build request is in flight.  On a 2xx response with a parsed body the
success entry is appended and `window.open` is called, still inside the `try`:
if that call throws, the `catch` block appends its error entry after the
success entry. -/
def buildSettle (b : Browser) (s : State) (o : FetchOutcome) (typeErr : String) :
    Option State :=
  if s.buildInFlight = 0 then none
  else
    let s0 := { s with buildInFlight := s.buildInFlight - 1 }
    match o with
    | .transportFailure msg => some (buildCatch s0 msg)
    | .response status body =>
      if !statusOk status then some (buildCatch s0 ("Build failed: " ++ toString status))
      else
        match body with
        | .error msg => some (buildCatch s0 msg)
        | .ok json =>
          match getProp json "site_url" with
          | none => some (buildCatch s0 typeErr)
          | some url =>
            match siteMessage url with
            | none => some (buildCatch s0 typeErr)
            | some m =>
              let s1 := { s0 with chatBox := addMessage s0.chatBox m "bot" }
              match b.openThrows url with
              | some msg => some (buildCatch s1 msg)
              | none => some { s1 with opened := s1.opened ++ [url] }

/-! ## The controller as a transition system -/

/-- What can happen to the page: the form is submitted, the advice request in
flight settles, the generate button is clicked, a build request in flight
settles. -/
inductive Event where
  | submit (f : FormValues) : Event
  | adviceResponse (o : FetchOutcome) (typeErr : String) : Event
  | buildClick (theme : String) : Event
  | buildResponse (o : FetchOutcome) (typeErr : String) : Event

/-- One step of the controller; `none` when the event cannot occur in `s` (a
response without a request in flight). -/
def step (b : Browser) (s : State) : Event → Option State
  | .submit f => some (submitStart s f)
  | .adviceResponse o typeErr => adviceSettle b s o typeErr
  | .buildClick theme => some (buildClick s theme)
  | .buildResponse o typeErr => buildSettle b s o typeErr

/-- Run a sequence of events; `none` as soon as one cannot occur. -/
def run (b : Browser) (s : State) : List Event → Option State
  | [] => some s
  | e :: es =>
    match step b s e with
    | none => none
    | some s1 => run b s1 es

/-- The states the page can be in: those reached from the initial state by
events that can occur. -/
inductive Reachable (b : Browser) : State → Prop where
  | init : Reachable b State.init
  | step {s s1 : State} (e : Event) : Reachable b s → step b s e = some s1 → Reachable b s1

/-- Whether a message is the loading bubble (the pending entry). -/
def isPending (m : Message) : Bool := m.loadingId

/-- The entries of the log that are not the pending entry, in order. -/
def nonPending (chatBox : List Message) : List Message :=
  chatBox.filter fun m => !isPending m

/-- The number of pending entries in the log. -/
def pendingCount (chatBox : List Message) : Nat :=
  chatBox.countP isPending

/-- The guard and the requests in flight move together: while the guard is set
exactly one advice request is in flight, and it is the one whose body is
`lastUserInput`; while the guard is clear none is.  `lastUserInput` is always
the body of the advice request issued last. -/
structure Inv (s : State) : Prop where
  flightSet : s.submitting = true → ∃ u, s.lastUserInput = some u ∧ s.adviceInFlight = [u]
  flightClear : s.submitting = false → s.adviceInFlight = []
  lastReq : s.lastUserInput = s.adviceRequests.getLast?

/-- A browser that never finds an element with id `loading` inside the markup
of an entry: the case in which no form value, advice text or other rendered
text carries markup with that id. -/
def Browser.plainMarkup (b : Browser) : Prop :=
  ∀ markup, b.removeLoadingIn markup = none

/-- Whether an event belongs to the build path (a click on the generate button
or the settlement of a build request). -/
def isBuildEvent : Event → Bool
  | .buildClick _ => true
  | .buildResponse _ _ => true
  | _ => false

/-- The entry appended by `addMessage(content, "user")`. -/
def userEntry (content : String) : Message :=
  { sender := "user", loadingId := false, content := content }

/-- The entry appended by `addLoadingBubble()`. -/
def loadingBubble : Message :=
  { sender := "bot", loadingId := true, content := "💭 Thinking..." }

/-- The entry appended by `addMessage(content, "bot")`. -/
def botEntry (content : String) : Message :=
  { sender := "bot", loadingId := false, content := content }

/-! ## Worked inputs -/

/-- Whether the characters `needle` begin the characters `hay`. -/
def startsWith : List Char → List Char → Bool
  | [], _ => true
  | _ :: _, [] => false
  | a :: as, c :: cs => a == c && startsWith as cs

/-- Cut the first occurrence of `needle` out of `hay`; `none` when `hay` does
not contain it. -/
def removeFirst (needle : List Char) : List Char → Option (List Char)
  | [] => if needle.isEmpty then some [] else none
  | c :: cs =>
    if startsWith needle (c :: cs) then some ((c :: cs).drop needle.length)
    else (removeFirst needle cs).map fun rest => c :: rest

/-- A form value that is markup: an element with the id of the loading bubble. -/
def injectedMarkup : String := "<i id=\"loading\">x</i>"

/-- A browser as far as the worked examples go.  In the markup those examples
render the id `loading` occurs only in the text `injectedMarkup`, which the
HTML parser turns into an element; removing that element leaves the markup
without that text.  The one URL of the examples that does not parse, and that
`window.open` therefore rejects, is `http://[`. -/
def sampleBrowser : Browser where
  removeLoadingIn markup := (removeFirst injectedMarkup.data markup.data).map String.mk
  openThrows url :=
    match url with
    | some (.str "http://[") => some "An invalid or illegal string was specified"
    | _ => none

/-- The form `sampleForm` with `injectedMarkup` typed into the industry field. -/
def injectedForm : FormValues where
  industry := injectedMarkup
  goals := "sell cakes"
  theme := "modern"
  projectDescriptions := "none"
  competitors := "a, b ,c, "

/-- The markup of the user entry that a submit of `injectedForm` appends. -/
def injectedUserMarkup : String :=
  userMessage injectedForm.industry injectedForm.theme injectedForm.goals
    injectedForm.projectDescriptions

/-- A filled-in form: the values of the specification's worked collector example. -/
def sampleForm : FormValues where
  industry := "bakery"
  goals := "sell cakes"
  theme := "modern"
  projectDescriptions := "none"
  competitors := "a, b ,c, "

/-- A well-shaped advice body. -/
def sampleAdvice : Json :=
  .obj [("copywriting", .str "Fresh\ndaily"),
        ("seo_tips", .obj [("recommended_keywords", .arr [.str "cake", .str "bread"])]),
        ("design_guidelines", .arr [.str "warm colours"])]

/-- A second filled-in form, with another competitors field. -/
def otherForm : FormValues where
  industry := "florist"
  goals := "sell roses"
  theme := "classic"
  projectDescriptions := "none"
  competitors := "z"

/-- The state reached from the initial one by a list of events (the initial
state itself if one of them cannot occur). -/
def stateAfter (b : Browser) (es : List Event) : State :=
  (run b State.init es).getD State.init

/-- The input collected from `sampleForm`. -/
def sampleInput : UserInput where
  industry := "bakery"
  style := "modern"
  goals := "sell cakes"
  competitors := ["a", "b", "c"]
  projectDescriptions := "none"

/-- The page after `sampleForm` was submitted and its advice request succeeded
with `sampleAdvice`. -/
def sampleReady (b : Browser) : State :=
  stateAfter b [.submit sampleForm, .adviceResponse (.response 200 (.ok sampleAdvice)) ""]

/-- The advice entry formatted from `sampleAdvice`. -/
def sampleAdviceHtml : String :=
  "\n      <strong>📋 Copywriting Advice:</strong><br>Fresh<br>daily<br><br>\n      <strong>🔍 SEO Tips:</strong> cake, bread<br>\n      <strong>🎨 Design Guidelines:</strong><br>\n      • warm colours\n    "

/-- A run in which `sampleForm` is submitted and succeeds, and `otherForm` is
submitted afterwards and is still in flight. -/
def laterSubmitTrace : List Event :=
  [.submit sampleForm, .adviceResponse (.response 200 (.ok sampleAdvice)) "",
   .submit otherForm]

/-- The run `laterSubmitTrace` continued by the failure of the second advice
request with status 500. -/
def laterFailedTrace : List Event :=
  laterSubmitTrace ++ [.adviceResponse (.response 500 (.ok sampleAdvice)) ""]

/-! ## The competitors collector -/

theorem splitCommaChars_ne_nil (cs : List Char) : splitCommaChars cs ≠ [] := by
  induction cs with
  | nil => simp [splitCommaChars]
  | cons c cs ih =>
    unfold splitCommaChars
    split
    · simp
    · split <;> simp

theorem specCut_eq (cs : List Char) : ∀ cur : List Char,
    specCut cur cs =
      (cur.reverse ++ (splitCommaChars cs).headD []) :: (splitCommaChars cs).tail := by
  induction cs with
  | nil => intro cur; simp [specCut, splitCommaChars]
  | cons c cs ih =>
    intro cur
    unfold specCut splitCommaChars
    by_cases hc : c = ','
    · simp only [hc, if_true]
      rw [ih []]
      cases h : splitCommaChars cs with
      | nil => exact absurd h (splitCommaChars_ne_nil cs)
      | cons p ps => simp
    · simp only [hc, if_false]
      rw [ih (c :: cur)]
      cases h : splitCommaChars cs with
      | nil => exact absurd h (splitCommaChars_ne_nil cs)
      | cons p ps => simp

theorem specCut_nil (cs : List Char) : specCut [] cs = splitCommaChars cs := by
  rw [specCut_eq]
  cases h : splitCommaChars cs with
  | nil => exact absurd h (splitCommaChars_ne_nil cs)
  | cons p ps => simp

theorem strTruthy_iff (t : String) : strTruthy t = decide (t ≠ "") := by
  cases t with
  | mk d =>
    cases d with
    | nil => rfl
    | cons a l =>
      have : (String.mk (a :: l)) ≠ "" := by
        intro h
        have := congrArg String.data h
        simp at this
      simp [strTruthy, String.length, this]

theorem collect_eq_spec (field : String) : collectCompetitors field = specCompetitors field := by
  unfold collectCompetitors specCompetitors jsSplitComma
  rw [specCut_nil, List.map_map]
  have hf : (strTruthy : String → Bool) = fun t => decide (t ≠ "") := funext strTruthy_iff
  rw [hf]
  rfl

theorem trimChars_head (cs : List Char) (ch : Char) (h : (trimChars cs).head? = some ch) :
    jsIsWhitespace ch = false := by
  unfold trimChars at h
  have hpre : ((cs.dropWhile jsIsWhitespace).reverse.dropWhile jsIsWhitespace).reverse <+:
      cs.dropWhile jsIsWhitespace := by
    have := List.dropWhile_suffix jsIsWhitespace (l := (cs.dropWhile jsIsWhitespace).reverse)
    simpa using List.reverse_prefix.mpr this
  obtain ⟨t, ht⟩ := hpre
  have h2 : (cs.dropWhile jsIsWhitespace).head? = some ch := by
    rw [← ht]
    cases hr : ((cs.dropWhile jsIsWhitespace).reverse.dropWhile jsIsWhitespace).reverse with
    | nil => rw [hr] at h; simp at h
    | cons a l => rw [hr] at h; simpa using h
  have := List.head?_dropWhile_not jsIsWhitespace cs
  rw [h2] at this
  simpa using this

theorem trimChars_last (cs : List Char) (ch : Char) (h : (trimChars cs).getLast? = some ch) :
    jsIsWhitespace ch = false := by
  unfold trimChars at h
  rw [List.getLast?_reverse] at h
  have := List.head?_dropWhile_not jsIsWhitespace (cs.dropWhile jsIsWhitespace).reverse
  rw [h] at this
  simpa using this


/-! ## The message log -/

theorem nonPending_addMessage (l : List Message) (c sender : String) :
    nonPending (addMessage l c sender) =
      nonPending l ++ [{ sender := sender, loadingId := false, content := c }] := by
  simp [nonPending, addMessage, isPending, List.filter_append]

theorem nonPending_addLoadingBubble (l : List Message) :
    nonPending (addLoadingBubble l) = nonPending l := by
  simp [nonPending, addLoadingBubble, isPending, List.filter_append]

/-- With markup free of the id, `removeLoadingBubble` removes the first loading
bubble and nothing else. -/
theorem nonPending_removeLoadingBubble (b : Browser) (hb : b.plainMarkup) (l : List Message) :
    nonPending (removeLoadingBubble b l) = nonPending l := by
  induction l with
  | nil => rfl
  | cons m ms ih =>
    unfold removeLoadingBubble
    by_cases hm : m.loadingId = true
    · simp [hm, nonPending, isPending]
    · simp only [hm, hb m.content]
      simp only [nonPending, isPending, List.filter_cons] at ih ⊢
      simp [hm, ih]

theorem pendingCount_addMessage (l : List Message) (c sender : String) :
    pendingCount (addMessage l c sender) = pendingCount l := by
  simp [pendingCount, addMessage, isPending, List.countP_append]

theorem pendingCount_addLoadingBubble (l : List Message) :
    pendingCount (addLoadingBubble l) = pendingCount l + 1 := by
  simp [pendingCount, addLoadingBubble, isPending, List.countP_append]

theorem pendingCount_removeLoadingBubble (b : Browser) (hb : b.plainMarkup)
    (l : List Message) :
    pendingCount (removeLoadingBubble b l) = pendingCount l - 1 := by
  induction l with
  | nil => rfl
  | cons m ms ih =>
    unfold removeLoadingBubble
    by_cases hm : m.loadingId = true
    · simp [hm, pendingCount, isPending, List.countP_cons]
    · have h1 : ¬ isPending m = true := by simpa [isPending] using hm
      rw [if_neg hm]
      simp only [hb m.content]
      unfold pendingCount at ih ⊢
      rw [List.countP_cons_of_neg _ _ h1, List.countP_cons_of_neg _ _ h1]
      exact ih

theorem pendingCount_eq_zero_iff (l : List Message) :
    pendingCount l = 0 ↔ ∀ m ∈ l, m.loadingId = false := by
  simp [pendingCount, isPending, List.countP_eq_zero]

/-! ## Effect of each handler on the state -/

/-- What a settled advice request leaves behind, whichever way it settled. -/
theorem adviceSettle_frame (b : Browser) (s s1 : State) (o : FetchOutcome) (typeErr : String)
    (h : adviceSettle b s o typeErr = some s1) :
    s1.submitting = false ∧ s1.adviceInFlight = s.adviceInFlight.tail ∧
    s1.lastUserInput = s.lastUserInput ∧ s1.adviceRequests = s.adviceRequests ∧
    s1.buildRequests = s.buildRequests ∧ s1.buildInFlight = s.buildInFlight ∧
    s1.opened = s.opened ∧
    ∃ c, s1.chatBox = addMessage (removeLoadingBubble b s.chatBox) c "bot" ∨
      s1.chatBox =
        addMessage (removeLoadingBubble b (removeLoadingBubble b s.chatBox)) c "bot" := by
  unfold adviceSettle at h
  cases hf : s.adviceInFlight with
  | nil => rw [hf] at h; simp at h
  | cons req rest =>
    rw [hf] at h
    simp only at h
    cases o with
    | transportFailure msg =>
      simp only [adviceTry, Option.some.injEq] at h
      subst h
      simp [adviceFinally, adviceCatch]
      exact ⟨_, Or.inl rfl⟩
    | response status body =>
      by_cases hs : statusOk status = true
      · cases body with
        | error msg =>
          simp only [adviceTry, hs, Option.some.injEq] at h
          simp at h
          subst h
          simp [adviceFinally, adviceCatch]
          exact ⟨_, Or.inl rfl⟩
        | ok data =>
          cases hb : botMessage data with
          | none =>
            simp only [adviceTry, hs, hb] at h
            simp at h
            subst h
            simp [adviceFinally, adviceCatch]
            exact ⟨_, Or.inr rfl⟩
          | some m =>
            simp only [adviceTry, hs, hb] at h
            simp at h
            subst h
            simp [adviceFinally]
            exact ⟨_, Or.inl rfl⟩
      · simp only [adviceTry, hs] at h
        simp at h
        subst h
        simp [adviceFinally, adviceCatch]
        exact ⟨_, Or.inl rfl⟩

/-- What a settled build request leaves behind: one or two more bot entries,
nothing else of the script's variables touched. -/
theorem buildSettle_frame (b : Browser) (s s1 : State) (o : FetchOutcome) (typeErr : String)
    (h : buildSettle b s o typeErr = some s1) :
    s1.submitting = s.submitting ∧ s1.lastUserInput = s.lastUserInput ∧
    s1.lastAIResponse = s.lastAIResponse ∧ s1.adviceRequests = s.adviceRequests ∧
    s1.adviceInFlight = s.adviceInFlight ∧ s1.adviceSucceeded = s.adviceSucceeded ∧
    s1.buildRequests = s.buildRequests ∧
    ∃ c, s1.chatBox = addMessage s.chatBox c "bot" ∨
      ∃ c1, s1.chatBox = addMessage (addMessage s.chatBox c "bot") c1 "bot" := by
  unfold buildSettle at h
  by_cases h0 : s.buildInFlight = 0
  · simp [h0] at h
  · simp only [h0, if_false] at h
    cases o with
    | transportFailure msg =>
      simp only [Option.some.injEq] at h
      subst h
      simp [buildCatch]
      exact ⟨_, Or.inl rfl⟩
    | response status body =>
      by_cases hs : statusOk status = true
      · cases body with
        | error msg =>
          simp [hs] at h
          subst h
          simp [buildCatch]
          exact ⟨_, Or.inl rfl⟩
        | ok json =>
          cases hg : getProp json "site_url" with
          | none =>
            simp [hs, hg] at h
            subst h
            simp [buildCatch]
            exact ⟨_, Or.inl rfl⟩
          | some url =>
            cases hm : siteMessage url with
            | none =>
              simp [hs, hg, hm] at h
              subst h
              simp [buildCatch]
              exact ⟨_, Or.inl rfl⟩
            | some m =>
              cases ho : b.openThrows url with
              | some msg =>
                simp [hs, hg, hm, ho] at h
                subst h
                simp [buildCatch]
                exact ⟨_, Or.inr ⟨_, rfl⟩⟩
              | none =>
                simp [hs, hg, hm, ho] at h
                subst h
                simp
                exact ⟨_, Or.inl rfl⟩
      · simp [hs] at h
        subst h
        simp [buildCatch]
        exact ⟨_, Or.inl rfl⟩

/-- What a click on the generate button leaves behind: one more bot entry, the
script's variables and the advice trace untouched. -/
theorem buildClick_frame (s : State) (theme : String) :
    (buildClick s theme).submitting = s.submitting ∧
    (buildClick s theme).lastUserInput = s.lastUserInput ∧
    (buildClick s theme).lastAIResponse = s.lastAIResponse ∧
    (buildClick s theme).adviceRequests = s.adviceRequests ∧
    (buildClick s theme).adviceInFlight = s.adviceInFlight ∧
    (buildClick s theme).adviceSucceeded = s.adviceSucceeded ∧
    ∃ c, (buildClick s theme).chatBox = addMessage s.chatBox c "bot" := by
  unfold buildClick
  cases hu : s.lastUserInput with
  | none => simp; exact ⟨_, rfl⟩
  | some u =>
    by_cases ht : truthy s.lastAIResponse = true
    · simp [ht, hu]; exact ⟨_, rfl⟩
    · simp [ht, hu]; exact ⟨_, rfl⟩

/-! ## Invariant of the reachable states -/

theorem inv_init : Inv State.init := by
  constructor <;> simp [State.init]

theorem inv_submitStart (s : State) (f : FormValues) (h : Inv s) : Inv (submitStart s f) := by
  unfold submitStart
  by_cases hs : s.submitting = true
  · simpa [hs] using h
  · have hs0 : s.submitting = false := by simpa using hs
    have hfl := h.flightClear hs0
    constructor
    · intro _
      simp [hs0, hfl]
    · simp [hs0]
    · simp [hs0]

theorem inv_adviceSettle (b : Browser) (s s1 : State) (o : FetchOutcome) (typeErr : String)
    (h : Inv s) (hstep : adviceSettle b s o typeErr = some s1) : Inv s1 := by
  obtain ⟨hsub, hfl, hlu, hreq, -, -, -, -⟩ := adviceSettle_frame b s s1 o typeErr hstep
  have hne : s.adviceInFlight ≠ [] := by
    intro hnil
    simp [adviceSettle, hnil] at hstep
  have hset : s.submitting = true := by
    by_contra hc
    exact hne (h.flightClear (by simpa using hc))
  obtain ⟨u, hu, hfu⟩ := h.flightSet hset
  constructor
  · intro h1; rw [hsub] at h1; cases h1
  · intro _; rw [hfl, hfu]; rfl
  · rw [hlu, hreq]; exact h.lastReq

theorem inv_buildClick (s : State) (theme : String) (h : Inv s) : Inv (buildClick s theme) := by
  obtain ⟨hsub, hlu, -, hreq, hfl, -, -⟩ := buildClick_frame s theme
  constructor
  · rw [hsub, hlu, hfl]; exact h.flightSet
  · rw [hsub, hfl]; exact h.flightClear
  · rw [hlu, hreq]; exact h.lastReq

theorem inv_buildSettle (b : Browser) (s s1 : State) (o : FetchOutcome) (typeErr : String)
    (h : Inv s) (hstep : buildSettle b s o typeErr = some s1) : Inv s1 := by
  obtain ⟨hsub, hlu, -, hreq, hfl, -, -, -⟩ := buildSettle_frame b s s1 o typeErr hstep
  constructor
  · rw [hsub, hlu, hfl]; exact h.flightSet
  · rw [hsub, hfl]; exact h.flightClear
  · rw [hlu, hreq]; exact h.lastReq

theorem inv_step (b : Browser) (s s1 : State) (e : Event) (h : Inv s)
    (hstep : step b s e = some s1) : Inv s1 := by
  cases e with
  | submit f =>
    simp only [step, Option.some.injEq] at hstep
    subst hstep
    exact inv_submitStart s f h
  | adviceResponse o typeErr => exact inv_adviceSettle b s s1 o typeErr h hstep
  | buildClick theme =>
    simp only [step, Option.some.injEq] at hstep
    subst hstep
    exact inv_buildClick s theme h
  | buildResponse o typeErr => exact inv_buildSettle b s s1 o typeErr h hstep

theorem inv_of_reachable (b : Browser) (s : State) (h : Reachable b s) : Inv s := by
  induction h with
  | init => exact inv_init
  | step e _ hstep ih => exact inv_step b _ _ e ih hstep

/-- With markup free of the id, the log of a reachable state holds exactly one
loading bubble while the guard is set and none while it is clear. -/
theorem pending_of_reachable (b : Browser) (hb : b.plainMarkup) (s : State)
    (h : Reachable b s) : pendingCount s.chatBox = if s.submitting then 1 else 0 := by
  induction h with
  | init => simp [State.init, pendingCount]
  | @step s s1 e _ hstep ih =>
    cases e with
    | submit f =>
      simp only [step, Option.some.injEq] at hstep
      subst hstep
      unfold submitStart
      by_cases hs : s.submitting = true
      · simpa [hs] using ih
      · have hs0 : s.submitting = false := by simpa using hs
        rw [hs0] at ih
        simp [hs0, pendingCount_addLoadingBubble, pendingCount_addMessage]
        simpa using ih
    | adviceResponse o typeErr =>
      have hinv := inv_of_reachable b s (by assumption)
      obtain ⟨hsub, -, -, -, -, -, -, c, hchat⟩ := adviceSettle_frame b s s1 o typeErr hstep
      have hne : s.adviceInFlight ≠ [] := by
        intro hnil
        simp [step, adviceSettle, hnil] at hstep
      have hset : s.submitting = true := by
        by_contra hc
        exact hne (hinv.flightClear (by simpa using hc))
      rw [hset] at ih
      rw [hsub]
      rcases hchat with hc | hc <;>
        simp [hc, pendingCount_addMessage, pendingCount_removeLoadingBubble b hb, ih]
    | buildClick theme =>
      simp only [step, Option.some.injEq] at hstep
      subst hstep
      obtain ⟨hsub, -, -, -, -, -, c, hc⟩ := buildClick_frame s theme
      rw [hsub, hc, pendingCount_addMessage]; exact ih
    | buildResponse o typeErr =>
      obtain ⟨hsub, -, -, -, -, -, -, c, hc⟩ := buildSettle_frame b s s1 o typeErr hstep
      rw [hsub]
      rcases hc with hc | ⟨c1, hc⟩
      · rw [hc, pendingCount_addMessage]; exact ih
      · rw [hc, pendingCount_addMessage, pendingCount_addMessage]; exact ih
/-! ## The re-entrancy guard -/

theorem submitStart_guarded (s : State) (f : FormValues) (h : s.submitting = true) :
    submitStart s f = s := by
  simp [submitStart, h]

theorem run_submits_guarded (b : Browser) (s : State) (h : s.submitting = true)
    (fs : List FormValues) : run b s (fs.map Event.submit) = some s := by
  induction fs with
  | nil => rfl
  | cons f fs ih => simp [run, step, submitStart_guarded s f h, ih]

theorem adviceSettle_total (b : Browser) (s : State) (o : FetchOutcome) (typeErr : String)
    (h : s.adviceInFlight ≠ []) : ∃ s1, adviceSettle b s o typeErr = some s1 := by
  unfold adviceSettle
  cases hf : s.adviceInFlight with
  | nil => exact absurd hf h
  | cons req rest =>
    simp only
    generalize adviceTry b { s with adviceInFlight := rest } req o typeErr = r
    obtain ⟨s1, e⟩ := r
    cases e with
    | none => exact ⟨_, rfl⟩
    | some msg => exact ⟨_, rfl⟩

/-- C1: in every reachable state with the submission guard set, a submit event
is a complete no-op: the state, including the message log and the trace of
issued advice requests, is unchanged.  Consequently at most one advice request
is in flight in every reachable state, and from a reachable state any sequence
of submit events can occur, issues at most one further advice request, keeps at
most one in flight, and changes nothing at all when the guard was set.  This
holds whatever the browser does with the values handed to it. -/
theorem submit_while_guarded_is_noop (b : Browser) (s : State) (hr : Reachable b s) :
    (s.submitting = true → ∀ f, step b s (.submit f) = some s) ∧
    s.adviceInFlight.length ≤ 1 ∧
    ∀ fs : List FormValues, ∃ s1, run b s (fs.map Event.submit) = some s1 ∧
      s1.adviceInFlight.length ≤ 1 ∧
      s1.adviceRequests.length ≤ s.adviceRequests.length + 1 ∧
      (s.submitting = true → s1 = s) := by
  have hlen : ∀ t : State, Inv t → t.adviceInFlight.length ≤ 1 := by
    intro t ht
    by_cases hs : t.submitting = true
    · obtain ⟨u, -, hu⟩ := ht.flightSet hs
      simp [hu]
    · simp [ht.flightClear (by simpa using hs)]
  have hinv := inv_of_reachable b s hr
  refine ⟨fun h f => by simp [step, submitStart_guarded s f h], hlen s hinv, ?_⟩
  intro fs
  by_cases hs : s.submitting = true
  · exact ⟨s, run_submits_guarded b s hs fs, hlen s hinv, by omega, fun _ => rfl⟩
  · cases fs with
    | nil => exact ⟨s, rfl, hlen s hinv, by omega, fun _ => rfl⟩
    | cons f fs =>
      have hs0 : s.submitting = false := by simpa using hs
      have hsub : (submitStart s f).submitting = true := by simp [submitStart, hs0]
      refine ⟨submitStart s f, ?_, hlen _ (inv_submitStart s f hinv), ?_, fun h => absurd h hs⟩
      · simp only [List.map_cons, run, step]
        exact run_submits_guarded b _ hsub fs
      · simp [submitStart, hs0]

theorem submit_while_guarded_is_noop_witness :
    step sampleBrowser (submitStart State.init sampleForm) (.submit sampleForm) =
      some (submitStart State.init sampleForm) :=
  (submit_while_guarded_is_noop sampleBrowser (submitStart State.init sampleForm)
    (Reachable.step (.submit sampleForm) Reachable.init rfl)).1 rfl sampleForm

/-- C2: whenever an advice request is in flight (that is, after an accepted
submit), its settlement can occur with every outcome (transport failure, any
status, a body that does not parse, a parsed body of any shape) and leaves the
submission guard clear, so that the next submit is accepted: it sets the guard
again and issues a new advice request carrying the form values.  This holds
whatever the browser does with the values handed to it. -/
theorem guard_clear_after_every_settle (b : Browser) (s : State) (o : FetchOutcome)
    (typeErr : String) (h : s.adviceInFlight ≠ []) :
    ∃ s1, step b s (.adviceResponse o typeErr) = some s1 ∧ s1.submitting = false ∧
      ∀ f : FormValues, ∃ s2, step b s1 (.submit f) = some s2 ∧ s2.submitting = true ∧
        s2.adviceRequests = s1.adviceRequests ++
          [{ industry := f.industry, style := f.theme, goals := f.goals,
             competitors := collectCompetitors f.competitors,
             projectDescriptions := f.projectDescriptions }] := by
  obtain ⟨s1, hs1⟩ := adviceSettle_total b s o typeErr h
  have hg := (adviceSettle_frame b s s1 o typeErr hs1).1
  refine ⟨s1, hs1, hg, fun f => ⟨submitStart s1 f, rfl, ?_, ?_⟩⟩
  · simp [submitStart, hg]
  · simp [submitStart, hg]

theorem guard_clear_after_every_settle_witness :
    ∃ s1, step sampleBrowser (submitStart State.init sampleForm)
        (.adviceResponse (.response 200 (.ok (.obj []))) "TypeError") = some s1 ∧
      s1.submitting = false ∧
      ∀ f : FormValues, ∃ s2, step sampleBrowser s1 (.submit f) = some s2 ∧
        s2.submitting = true ∧
        s2.adviceRequests = s1.adviceRequests ++
          [{ industry := f.industry, style := f.theme, goals := f.goals,
             competitors := collectCompetitors f.competitors,
             projectDescriptions := f.projectDescriptions }] :=
  guard_clear_after_every_settle sampleBrowser (submitStart State.init sampleForm)
    (.response 200 (.ok (.obj []))) "TypeError" (by simp [submitStart, State.init])

/-! ## The build path -/

/-- C5: in every state where `lastUserInput` is `null` or `lastAIResponse` is
falsy (in particular `null`), a click on the generate button appends exactly one
entry, the warning, issues no build request (the trace of issued and in-flight
requests is unchanged, nothing is opened) and leaves `lastUserInput`,
`lastAIResponse` and the submission guard unchanged.  This holds whatever the
browser does with the values handed to it. -/
theorem build_without_advice_only_warns (b : Browser) (s : State) (theme : String)
    (h : s.lastUserInput = none ∨ truthy s.lastAIResponse = false) :
    ∃ s1, step b s (.buildClick theme) = some s1 ∧
      s1.chatBox = s.chatBox ++
        [{ sender := "bot", loadingId := false,
           content := "⚠️ No AI response to generate site from. Run the assistant first." }] ∧
      s1.buildRequests = s.buildRequests ∧ s1.buildInFlight = s.buildInFlight ∧
      s1.adviceRequests = s.adviceRequests ∧ s1.adviceInFlight = s.adviceInFlight ∧
      s1.opened = s.opened ∧
      s1.lastUserInput = s.lastUserInput ∧ s1.lastAIResponse = s.lastAIResponse ∧
      s1.submitting = s.submitting := by
  refine ⟨buildClick s theme, rfl, ?_⟩
  unfold buildClick
  cases hu : s.lastUserInput with
  | none => simp [addMessage, noResponseWarning]
  | some u =>
    have ht : truthy s.lastAIResponse = false := by
      rcases h with h | h
      · rw [hu] at h; cases h
      · exact h
    simp [ht, addMessage, noResponseWarning]

theorem build_without_advice_only_warns_witness :
    ∃ s1, step sampleBrowser State.init (.buildClick "modern") = some s1 ∧
      s1.chatBox = State.init.chatBox ++
        [{ sender := "bot", loadingId := false,
           content := "⚠️ No AI response to generate site from. Run the assistant first." }] ∧
      s1.buildRequests = State.init.buildRequests ∧
      s1.buildInFlight = State.init.buildInFlight ∧
      s1.adviceRequests = State.init.adviceRequests ∧
      s1.adviceInFlight = State.init.adviceInFlight ∧
      s1.opened = State.init.opened ∧
      s1.lastUserInput = State.init.lastUserInput ∧
      s1.lastAIResponse = State.init.lastAIResponse ∧
      s1.submitting = State.init.submitting :=
  build_without_advice_only_warns sampleBrowser State.init "modern" (Or.inl rfl)

theorem reachable_run (b : Browser) (es : List Event) : ∀ s s1 : State, Reachable b s →
    run b s es = some s1 → Reachable b s1 := by
  induction es with
  | nil =>
    intro s s1 hr h
    simp only [run, Option.some.injEq] at h
    exact h ▸ hr
  | cons e es ih =>
    intro s s1 hr h
    simp only [run] at h
    cases hs : step b s e with
    | none => rw [hs] at h; cases h
    | some s2 =>
      rw [hs] at h
      exact ih s2 s1 (Reachable.step e hr hs) h

theorem reachable_sampleReady (b : Browser) : Reachable b (sampleReady b) :=
  reachable_run b [.submit sampleForm, .adviceResponse (.response 200 (.ok sampleAdvice)) ""]
    State.init (sampleReady b) Reachable.init rfl

/-- With an advice object stored that has the properties `copywriting`,
`seo_tips` and `design_guidelines` (every response that was formatted
successfully has them), a click with theme `t` selected issues exactly one build
request, and its body has exactly the nine fields of the build contract, in the
order of the object literal: the input fields of `lastUserInput`, the three
advice values, and `t` as both `style` and `theme`. -/
theorem build_body_fields (s : State) (u : UserInput) (t : String)
    (fields : List (String × Json)) (cw tips dg : Json)
    (hu : s.lastUserInput = some u) (ha : s.lastAIResponse = .obj fields)
    (h1 : lookupField "copywriting" fields = some cw)
    (h2 : lookupField "seo_tips" fields = some tips)
    (h3 : lookupField "design_guidelines" fields = some dg) :
    ∃ p, (buildClick s t).buildRequests = s.buildRequests ++ [p] ∧
      (buildClick s t).buildInFlight = s.buildInFlight + 1 ∧
      payloadBody p = .obj
        [("industry", .str u.industry), ("style", .str t), ("goals", .str u.goals),
         ("competitors", .arr (u.competitors.map Json.str)),
         ("project_descriptions", .str u.projectDescriptions),
         ("ai_copy", cw), ("seo_tips", tips), ("design_guidelines", dg),
         ("theme", .str t)] := by
  refine ⟨buildPayload u s.lastAIResponse t, ?_, ?_, ?_⟩
  · simp [buildClick, hu, ha, truthy]
  · simp [buildClick, hu, ha, truthy]
  · simp [payloadBody, payloadProps, buildPayload, ha, getProp, h1, h2, h3, jsonStringify]

/-- C6 (the code at the failing input): submit `sampleForm` and let the advice
request settle with status 200 and the body `{}`.  The handler reports an
error and records no success, but `lastUserInput` holds the input and
`lastAIResponse` holds `{}`, which is truthy; a click with theme `dark` then
issues a build request whose body has six fields only: `ai_copy`, `seo_tips`
and `design_guidelines` are `undefined` in `payload` and left out by
`JSON.stringify`.  After a successful advice request the same click sends all
nine fields, with `dark` as `style` and `theme` although the input recorded
`modern`. -/
theorem build_body_after_malformed_advice :
    (∀ b : Browser, ∃ s1, run b State.init
        [.submit sampleForm, .adviceResponse (.response 200 (.ok (.obj []))) "no copywriting"] =
          some s1 ∧
      s1.lastUserInput = some sampleInput ∧ truthy s1.lastAIResponse = true ∧
      s1.adviceSucceeded = [] ∧
      (buildClick s1 "dark").buildRequests.map payloadBody =
        [.obj [("industry", .str "bakery"), ("style", .str "dark"),
               ("goals", .str "sell cakes"),
               ("competitors", .arr [.str "a", .str "b", .str "c"]),
               ("project_descriptions", .str "none"), ("theme", .str "dark")]]) ∧
    (∀ b : Browser, (sampleReady b).lastUserInput = some sampleInput ∧
      sampleInput.style = "modern" ∧
      (buildClick (sampleReady b) "dark").buildRequests.map payloadBody =
        [.obj [("industry", .str "bakery"), ("style", .str "dark"),
               ("goals", .str "sell cakes"),
               ("competitors", .arr [.str "a", .str "b", .str "c"]),
               ("project_descriptions", .str "none"),
               ("ai_copy", .str "Fresh\ndaily"),
               ("seo_tips", .obj [("recommended_keywords", .arr [.str "cake", .str "bread"])]),
               ("design_guidelines", .arr [.str "warm colours"]),
               ("theme", .str "dark")]]) :=
  ⟨fun _ => ⟨_, rfl, rfl, rfl, rfl, rfl⟩, fun _ => ⟨rfl, rfl, rfl⟩⟩

/-! ## Ordering of the message log -/

/-- With markup free of the id `loading`: in every reachable state with an
advice request in flight, a successful settlement removes the loading bubble and
then appends the advice entry, so that no loading bubble is left and the advice
entry is last. -/
theorem advice_success_replaces_pending_plain (b : Browser) (hb : b.plainMarkup) (s : State)
    (hr : Reachable b s) (status : Nat) (data : Json) (m typeErr : String)
    (hin : s.adviceInFlight ≠ []) (hok : statusOk status = true)
    (hm : botMessage data = some m) :
    ∃ s1, step b s (.adviceResponse (.response status (.ok data)) typeErr) = some s1 ∧
      pendingCount s.chatBox = 1 ∧
      s1.chatBox = removeLoadingBubble b s.chatBox ++ [botEntry m] ∧
      pendingCount s1.chatBox = 0 ∧
      (∀ e ∈ s1.chatBox, isPending e = false) ∧
      s1.chatBox.getLast? = some (botEntry m) := by
  have hinv := inv_of_reachable b s hr
  have hset : s.submitting = true := by
    by_contra hc
    exact hin (hinv.flightClear (by simpa using hc))
  have hp : pendingCount s.chatBox = 1 := by
    have := pending_of_reachable b hb s hr
    rwa [hset] at this
  cases hf : s.adviceInFlight with
  | nil => exact absurd hf hin
  | cons req rest =>
    have hchat : ∀ c : List Message,
        c = removeLoadingBubble b s.chatBox ++ [botEntry m] → pendingCount c = 0 := by
      intro c hc
      have h1 := pendingCount_addMessage (removeLoadingBubble b s.chatBox) m "bot"
      rw [pendingCount_removeLoadingBubble b hb, hp] at h1
      rw [hc]
      exact h1
    obtain ⟨s1, hs1⟩ := adviceSettle_total b s (.response status (.ok data)) typeErr hin
    have hs2 := hs1
    simp only [adviceSettle, hf, adviceTry, hok, hm] at hs2
    simp only [Bool.not_true, Bool.false_eq_true, if_false, Option.some.injEq] at hs2
    have hc : s1.chatBox = removeLoadingBubble b s.chatBox ++ [botEntry m] := by
      rw [← hs2]; simp [adviceFinally, addMessage, botEntry]
    have h0 := hchat _ hc
    refine ⟨s1, hs1, hp, hc, h0, (pendingCount_eq_zero_iff _).mp h0, ?_⟩
    rw [hc]; simp

/-- C7 (the code at the failing input): type `<i id="loading">x</i>` into the
industry field, submit, and let the advice request succeed.  The form value is
interpolated unescaped into the `innerHTML` of the user entry, so in every
browser whose parser finds an element with id `loading` in that markup,
`removeLoadingBubble` removes that element (it comes first in document order)
and not the bubble: the log after the success transition is the user entry with
the rest of its markup, the loading bubble, and the advice entry.  The pending
entry coexists with the result entry of its own request. -/
theorem injected_id_keeps_loading_bubble (b : Browser) (rest : String)
    (hb : b.removeLoadingIn injectedUserMarkup = some rest) :
    ∃ s1, run b State.init
        [.submit injectedForm, .adviceResponse (.response 200 (.ok sampleAdvice)) ""] =
          some s1 ∧
      s1.adviceSucceeded.length = 1 ∧
      s1.chatBox =
        [userEntry rest,
         loadingBubble,
         botEntry sampleAdviceHtml] ∧
      pendingCount s1.chatBox = 1 ∧
      s1.chatBox.getLast? = some (botEntry sampleAdviceHtml) := by
  have hchat : removeLoadingBubble b (submitStart State.init injectedForm).chatBox =
      [userEntry rest,
       loadingBubble] := by
    simp [submitStart, State.init, addLoadingBubble, addMessage, removeLoadingBubble, userEntry,
      loadingBubble, injectedUserMarkup] at hb ⊢
    simp [hb]
  refine ⟨_, rfl, rfl, ?_, ?_, ?_⟩
  · show addMessage (removeLoadingBubble b (submitStart State.init injectedForm).chatBox)
      sampleAdviceHtml "bot" = _
    rw [hchat]; rfl
  · show pendingCount
      (addMessage (removeLoadingBubble b (submitStart State.init injectedForm).chatBox)
        sampleAdviceHtml "bot") = 1
    rw [hchat]; rfl
  · show (addMessage (removeLoadingBubble b (submitStart State.init injectedForm).chatBox)
      sampleAdviceHtml "bot").getLast? = _
    rw [hchat]; rfl

theorem injected_id_keeps_loading_bubble_witness :
    ∃ s1, run sampleBrowser State.init
        [.submit injectedForm, .adviceResponse (.response 200 (.ok sampleAdvice)) ""] =
          some s1 ∧
      s1.adviceSucceeded.length = 1 ∧
      s1.chatBox =
        [userEntry (userMessage "" "modern" "sell cakes" "none"),
         loadingBubble,
         botEntry sampleAdviceHtml] ∧
      pendingCount s1.chatBox = 1 ∧
      s1.chatBox.getLast? = some (botEntry sampleAdviceHtml) :=
  injected_id_keeps_loading_bubble sampleBrowser (userMessage "" "modern" "sell cakes" "none")
    (by decide)

/-- With markup free of the id `loading`: every step of the controller keeps
the entries other than the loading bubble, in order, as an initial segment of
those after the step. -/
theorem non_pending_entries_only_grow_plain (b : Browser) (hb : b.plainMarkup)
    (s s1 : State) (e : Event) (h : step b s e = some s1) :
    nonPending s.chatBox <+: nonPending s1.chatBox := by
  cases e with
  | submit f =>
    simp only [step, Option.some.injEq] at h
    subst h
    unfold submitStart
    by_cases hs : s.submitting = true
    · simp [hs]
    · simp only [hs]
      simp [nonPending_addLoadingBubble, nonPending_addMessage]
  | adviceResponse o typeErr =>
    obtain ⟨-, -, -, -, -, -, -, c, hc⟩ := adviceSettle_frame b s s1 o typeErr h
    rcases hc with hc | hc <;>
      simp [hc, nonPending_addMessage, nonPending_removeLoadingBubble b hb]
  | buildClick theme =>
    simp only [step, Option.some.injEq] at h
    subst h
    obtain ⟨-, -, -, -, -, -, c, hc⟩ := buildClick_frame s theme
    simp [hc, nonPending_addMessage]
  | buildResponse o typeErr =>
    obtain ⟨-, -, -, -, -, -, -, c, hc⟩ := buildSettle_frame b s s1 o typeErr h
    rcases hc with hc | ⟨c1, hc⟩
    · simp [hc, nonPending_addMessage]
    · simp [hc, nonPending_addMessage, List.append_assoc]

/-- C10 (the code at the failing input): type `<i id="loading">x</i>` into the
industry field, submit, and let the advice request succeed.  In every browser
whose parser finds an element with id `loading` in the markup of the user entry
and leaves other markup once it is removed, the advice settlement alters the
user entry, which is not the pending entry: the entries other than the loading
bubble before the step are the user entry as appended, after the step they are
the user entry with the rest of its markup and the advice entry, and the former
is not an initial segment of the latter. -/
theorem injected_id_alters_user_entry (b : Browser) (rest : String)
    (hb : b.removeLoadingIn injectedUserMarkup = some rest)
    (hne : rest ≠ injectedUserMarkup) :
    ∃ s1, step b (submitStart State.init injectedForm)
        (.adviceResponse (.response 200 (.ok sampleAdvice)) "") = some s1 ∧
      nonPending (submitStart State.init injectedForm).chatBox =
        [userEntry injectedUserMarkup] ∧
      nonPending s1.chatBox =
        [userEntry rest,
         botEntry sampleAdviceHtml] ∧
      ¬ (nonPending (submitStart State.init injectedForm).chatBox <+: nonPending s1.chatBox) := by
  have hchat : removeLoadingBubble b (submitStart State.init injectedForm).chatBox =
      [userEntry rest,
       loadingBubble] := by
    simp [submitStart, State.init, addLoadingBubble, addMessage, removeLoadingBubble, userEntry,
      loadingBubble, injectedUserMarkup] at hb ⊢
    simp [hb]
  have hafter : nonPending
      (addMessage (removeLoadingBubble b (submitStart State.init injectedForm).chatBox)
        sampleAdviceHtml "bot") =
      [userEntry rest,
       botEntry sampleAdviceHtml] := by
    rw [hchat]; rfl
  refine ⟨_, rfl, rfl, hafter, ?_⟩
  show ¬ (nonPending (submitStart State.init injectedForm).chatBox <+:
    nonPending (addMessage (removeLoadingBubble b (submitStart State.init injectedForm).chatBox)
      sampleAdviceHtml "bot"))
  rw [hafter]
  intro hpre
  have hpre1 : [userEntry injectedUserMarkup] <+:
      [userEntry rest,
       botEntry sampleAdviceHtml] := hpre
  obtain ⟨t, ht⟩ := hpre1
  have hhead := (List.cons.inj ht).1
  exact hne (congrArg Message.content hhead).symm

theorem injected_id_alters_user_entry_witness :
    ∃ s1, step sampleBrowser (submitStart State.init injectedForm)
        (.adviceResponse (.response 200 (.ok sampleAdvice)) "") = some s1 ∧
      nonPending (submitStart State.init injectedForm).chatBox =
        [userEntry injectedUserMarkup] ∧
      nonPending s1.chatBox =
        [userEntry (userMessage "" "modern" "sell cakes" "none"),
         botEntry sampleAdviceHtml] ∧
      ¬ (nonPending (submitStart State.init injectedForm).chatBox <+: nonPending s1.chatBox) :=
  injected_id_alters_user_entry sampleBrowser (userMessage "" "modern" "sell cakes" "none")
    (by decide) (by decide)

/-! ## The site entry -/

/-- C9 (as amended): whenever a build request is in flight (in particular after
an advice request succeeded and the generate button was clicked) and it settles
with a 2xx status and a body whose `site_url` is the string `u`, the settlement
appends the site entry
`✅ Site generated: <a href="u" target="_blank">Open site</a>`, which contains
`u` literally.  When `window.open` accepts `u`, that entry is the final entry of
the log and `u` is what was opened.  When `window.open` rejects `u` with an
exception of message `msg`, the `catch` block appends the error entry after the
site entry, which is then the last but one, and nothing is opened. -/
theorem build_success_entry_contains_url (b : Browser) (s : State) (status : Nat)
    (fields : List (String × Json)) (u typeErr : String)
    (hin : s.buildInFlight ≠ 0) (hok : statusOk status = true)
    (hu : lookupField "site_url" fields = some (.str u)) :
    (b.openThrows (some (.str u)) = none →
      ∃ s1 entry,
        step b s (.buildResponse (.response status (.ok (.obj fields))) typeErr) = some s1 ∧
        s1.chatBox = s.chatBox ++ [entry] ∧
        s1.chatBox.getLast? = some entry ∧
        entry.content =
          "✅ Site generated: <a href=\"" ++ u ++ "\" target=\"_blank\">Open site</a>" ∧
        (∃ before after : String, entry.content = before ++ u ++ after) ∧
        s1.opened = s.opened ++ [some (.str u)]) ∧
    (∀ msg, b.openThrows (some (.str u)) = some msg →
      ∃ s1 entry,
        step b s (.buildResponse (.response status (.ok (.obj fields))) typeErr) = some s1 ∧
        s1.chatBox = s.chatBox ++ [entry, botEntry ("❌ Error generating site: " ++ msg)] ∧
        entry.content =
          "✅ Site generated: <a href=\"" ++ u ++ "\" target=\"_blank\">Open site</a>" ∧
        (∃ before after : String, entry.content = before ++ u ++ after) ∧
        s1.opened = s.opened) := by
  constructor
  · intro hopen
    have hstep : step b s (.buildResponse (.response status (.ok (.obj fields))) typeErr) =
        some { s with
          buildInFlight := s.buildInFlight - 1
          chatBox := addMessage s.chatBox
            ("✅ Site generated: <a href=\"" ++ u ++ "\" target=\"_blank\">Open site</a>") "bot"
          opened := s.opened ++ [some (.str u)] } := by
      simp only [step, buildSettle, hin, if_false, hok, getProp, hu, siteMessage, templ,
        jsToString, Option.map, hopen]
      rfl
    refine ⟨_, botEntry ("✅ Site generated: <a href=\"" ++ u ++ "\" target=\"_blank\">Open site</a>"),
      hstep, ?_, ?_, rfl, ⟨_, _, rfl⟩, rfl⟩
    · simp [addMessage, botEntry]
    · simp [addMessage, botEntry]
  · intro msg hopen
    have hstep : step b s (.buildResponse (.response status (.ok (.obj fields))) typeErr) =
        some { s with
          buildInFlight := s.buildInFlight - 1
          chatBox := addMessage (addMessage s.chatBox
            ("✅ Site generated: <a href=\"" ++ u ++ "\" target=\"_blank\">Open site</a>") "bot")
            ("❌ Error generating site: " ++ msg) "bot" } := by
      simp only [step, buildSettle, hin, if_false, hok, getProp, hu, siteMessage, templ,
        jsToString, Option.map, hopen, buildCatch]
      rfl
    refine ⟨_, botEntry ("✅ Site generated: <a href=\"" ++ u ++ "\" target=\"_blank\">Open site</a>"),
      hstep, ?_, rfl, ⟨_, _, rfl⟩, rfl⟩
    simp [addMessage, botEntry]

theorem build_success_entry_contains_url_witness :
    ∃ s1 entry, step sampleBrowser (buildClick (sampleReady sampleBrowser) "dark")
        (.buildResponse (.response 200 (.ok (.obj [("site_url", .str "https://x.test/site")])))
          "") = some s1 ∧
      s1.chatBox = (buildClick (sampleReady sampleBrowser) "dark").chatBox ++ [entry] ∧
      s1.chatBox.getLast? = some entry ∧
      entry.content =
        "✅ Site generated: <a href=\"" ++ "https://x.test/site" ++
          "\" target=\"_blank\">Open site</a>" ∧
      (∃ before after : String, entry.content = before ++ "https://x.test/site" ++ after) ∧
      s1.opened = (buildClick (sampleReady sampleBrowser) "dark").opened ++
        [some (.str "https://x.test/site")] :=
  (build_success_entry_contains_url sampleBrowser (buildClick (sampleReady sampleBrowser) "dark")
    200 [("site_url", .str "https://x.test/site")] "https://x.test/site" "" (by decide) rfl
    rfl).1 rfl

set_option maxRecDepth 10000 in
/-- C9 (the claim as stated fails): submit `sampleForm`, let the advice
request succeed, click the generate button, and let the build request succeed
with a body whose only field is `site_url`, with the value `http://[`.  That
string does not parse as a URL, so `window.open` throws inside the `try` block, after the site entry was
appended.  The final entry of the log is the error entry of the `catch` block,
which does not contain the string `http://[` (it has no `[` at all); the site
entry is the last but one, and nothing was opened. -/
theorem unopenable_site_url_ends_in_error :
    (sampleReady sampleBrowser).adviceSucceeded = [sampleInput] ∧
    ∃ s1, run sampleBrowser (sampleReady sampleBrowser)
        [.buildClick "dark",
         .buildResponse (.response 200 (.ok (.obj [("site_url", .str "http://[")]))) ""] =
          some s1 ∧
      s1.chatBox.getLast? =
        some (botEntry "❌ Error generating site: An invalid or illegal string was specified") ∧
      ¬ (∃ before after : String,
        (botEntry "❌ Error generating site: An invalid or illegal string was specified").content =
          before ++ "http://[" ++ after) ∧
      (s1.chatBox.dropLast).getLast? = some (botEntry
        "✅ Site generated: <a href=\"http://[\" target=\"_blank\">Open site</a>") ∧
      s1.opened = [] := by
  refine ⟨rfl, _, rfl, rfl, ?_, rfl, rfl⟩
  rintro ⟨before, after, h⟩
  have hmem : '[' ∈ (before ++ "http://[" ++ after).data := by
    simp [String.data_append]
  rw [← h] at hmem
  revert hmem
  decide

/-! ## The collected competitors list -/

/-- C8: for every competitors field the collected list is the list the
specification describes (cut at every comma, trim each piece, drop the pieces
empty after trimming); it is a sublist of the trimmed pieces, so order and
duplicates are kept; none of its elements is empty or starts or ends with a
whitespace character; the field `a, b ,c, ` gives `a`, `b`, `c`, and a repeated
name is kept twice. -/
theorem collectCompetitors_meets_spec :
    (∀ field, collectCompetitors field = specCompetitors field) ∧
    (∀ field, (collectCompetitors field).Sublist ((jsSplitComma field).map jsTrim)) ∧
    (∀ field c, c ∈ collectCompetitors field →
      c ≠ "" ∧ (∀ ch, c.data.head? = some ch → jsIsWhitespace ch = false) ∧
      (∀ ch, c.data.getLast? = some ch → jsIsWhitespace ch = false)) ∧
    collectCompetitors "a, b ,c, " = ["a", "b", "c"] ∧
    collectCompetitors "x, y,x" = ["x", "y", "x"] := by
  refine ⟨collect_eq_spec, fun field => List.filter_sublist _, ?_, by decide, by decide⟩
  intro field c hc
  unfold collectCompetitors at hc
  rw [List.mem_filter, List.mem_map] at hc
  obtain ⟨⟨piece, -, hpiece⟩, htruthy⟩ := hc
  have hdata : c.data = trimChars piece.data := by rw [← hpiece]; rfl
  refine ⟨?_, ?_, ?_⟩
  · rw [strTruthy_iff] at htruthy
    simpa using htruthy
  · intro ch hch
    rw [hdata] at hch
    exact trimChars_head _ _ hch
  · intro ch hch
    rw [hdata] at hch
    exact trimChars_last _ _ hch

theorem collectCompetitors_meets_spec_witness :
    "b" ≠ "" ∧ (∀ ch, "b".data.head? = some ch → jsIsWhitespace ch = false) ∧
      (∀ ch, "b".data.getLast? = some ch → jsIsWhitespace ch = false) :=
  collectCompetitors_meets_spec.2.2.1 "a, b ,c, " "b" (by decide)

/-! ## What a failed advice request leaves in `lastAIResponse` -/

/-- An advice request that fails before its body is parsed (transport failure,
non-2xx status, or a body that is not JSON) leaves `lastAIResponse` as it was. -/
theorem advice_failure_before_parse_keeps_lastAIResponse (b : Browser) (s s1 : State)
    (o : FetchOutcome) (typeErr : String)
    (h : step b s (.adviceResponse o typeErr) = some s1)
    (ho : (∃ msg, o = .transportFailure msg) ∨
      (∃ status body, o = .response status body ∧ statusOk status = false) ∨
      (∃ status msg, o = .response status (.error msg))) :
    s1.lastAIResponse = s.lastAIResponse := by
  simp only [step, adviceSettle] at h
  cases hf : s.adviceInFlight with
  | nil => rw [hf] at h; simp at h
  | cons req rest =>
    rw [hf] at h
    rcases ho with ⟨msg, rfl⟩ | ⟨status, body, rfl, hs⟩ | ⟨status, msg, rfl⟩
    · simp [adviceTry] at h
      subst h
      simp [adviceFinally, adviceCatch]
    · simp [adviceTry, hs] at h
      subst h
      simp [adviceFinally, adviceCatch]
    · by_cases hs : statusOk status = true
      · simp [adviceTry, hs] at h
        subst h
        simp [adviceFinally, adviceCatch]
      · simp [adviceTry, hs] at h
        subst h
        simp [adviceFinally, adviceCatch]

/-- C3 (the code at the failing input): from the initial page, where
`lastAIResponse` is `null`, submit `sampleForm` and let the advice request
settle with status 200 and the body `{}`.  The handler shows the error entry,
does not record a success and does not reveal the generate button, yet
`lastAIResponse` now holds `{}` instead of `null`, and a click on the generate
button issues a build request whose `ai_copy` is `undefined`.  Likewise a body
`null` after an earlier success erases the stored advice.  This holds whatever
the browser does with the values handed to it. -/
theorem malformed_body_overwrites_lastAIResponse :
    State.init.lastAIResponse = Json.null ∧
    (∀ b : Browser, ∃ s1, run b State.init
        [.submit sampleForm, .adviceResponse (.response 200 (.ok (.obj []))) "no copywriting"] =
          some s1 ∧
      s1.lastAIResponse = Json.obj [] ∧ s1.lastAIResponse ≠ State.init.lastAIResponse ∧
      s1.chatBox.getLast? = some (botEntry "❌ Error: no copywriting") ∧
      s1.adviceSucceeded = [] ∧ s1.generateBtnShown = false ∧ s1.submitting = false ∧
      (buildClick s1 "modern").buildRequests.length = 1 ∧
      (buildClick s1 "modern").buildRequests.map (fun p => p.ai_copy.isNone) = [true]) ∧
    (∀ b : Browser, (sampleReady b).lastAIResponse = sampleAdvice ∧
      ∃ s2, run b (sampleReady b)
          [.submit otherForm, .adviceResponse (.response 200 (.ok Json.null)) "data is null"] =
            some s2 ∧
        s2.lastAIResponse = Json.null ∧
        s2.chatBox.getLast? = some (botEntry "❌ Error: data is null")) := by
  refine ⟨rfl, fun b => ⟨_, rfl, rfl, ?_, ?_, rfl, rfl, rfl, rfl, rfl⟩,
    fun b => ⟨rfl, _, rfl, rfl, ?_⟩⟩
  · intro h
    cases h
  · show (addMessage _ _ _).getLast? = _
    simp [addMessage, botEntry]
  · show (addMessage _ _ _).getLast? = _
    simp [addMessage, botEntry]

/-! ## Which input a build request carries -/

/-- A settled advice request either records no success, or records the oldest
request in flight as succeeded. -/
theorem adviceSettle_succeeded (b : Browser) (s s1 : State) (o : FetchOutcome)
    (typeErr : String) (h : adviceSettle b s o typeErr = some s1) :
    s1.adviceSucceeded = s.adviceSucceeded ∨
      ∃ req rest, s.adviceInFlight = req :: rest ∧
        s1.adviceSucceeded = s.adviceSucceeded ++ [req] := by
  unfold adviceSettle at h
  cases hf : s.adviceInFlight with
  | nil => rw [hf] at h; simp at h
  | cons req rest =>
    rw [hf] at h
    simp only at h
    cases o with
    | transportFailure msg =>
      simp only [adviceTry, Option.some.injEq] at h
      subst h
      simp [adviceFinally, adviceCatch]
    | response status body =>
      by_cases hs : statusOk status = true
      · cases body with
        | error msg =>
          simp [adviceTry, hs] at h
          subst h
          simp [adviceFinally, adviceCatch]
        | ok data =>
          cases hb : botMessage data with
          | none =>
            simp [adviceTry, hs, hb] at h
            subst h
            simp [adviceFinally, adviceCatch]
          | some m =>
            simp [adviceTry, hs, hb] at h
            subst h
            simp [adviceFinally]
      · simp [adviceTry, hs] at h
        subst h
        simp [adviceFinally, adviceCatch]

theorem run_build_events_frame (b : Browser) (es : List Event) : ∀ s s1 : State,
    (∀ e ∈ es, isBuildEvent e = true) → run b s es = some s1 →
    s1.lastUserInput = s.lastUserInput := by
  induction es with
  | nil =>
    intro s s1 _ h
    simp only [run, Option.some.injEq] at h
    rw [h]
  | cons e es ih =>
    intro s s1 hb h
    simp only [run] at h
    cases hs : step b s e with
    | none => rw [hs] at h; cases h
    | some s2 =>
      rw [hs] at h
      have h2 := ih s2 s1 (fun e1 he1 => hb e1 (List.mem_cons_of_mem _ he1)) h
      have he := hb e (List.mem_cons_self _ _)
      cases e with
      | submit f => simp [isBuildEvent] at he
      | adviceResponse o typeErr => simp [isBuildEvent] at he
      | buildClick theme =>
        simp only [step, Option.some.injEq] at hs
        rw [h2, ← hs]
        exact (buildClick_frame s theme).2.1
      | buildResponse o typeErr =>
        rw [h2]
        exact (buildSettle_frame b s s2 o typeErr hs).2.1

theorem buildClick_payload (s : State) (theme : String) (p : BuildPayload)
    (hp : (buildClick s theme).buildRequests = s.buildRequests ++ [p]) :
    ∃ u, s.lastUserInput = some u ∧ p.competitors = u.competitors := by
  unfold buildClick at hp
  cases hu : s.lastUserInput with
  | none =>
    rw [hu] at hp
    simp at hp
  | some u =>
    rw [hu] at hp
    by_cases ht : truthy s.lastAIResponse = true
    · simp [ht] at hp
      exact ⟨u, rfl, by rw [← hp]; rfl⟩
    · simp [ht] at hp

/-- C4 (as amended): in every reachable state in which a click on the generate
button issues a build request, whatever theme is selected, the competitors list
of the payload equals, element for element and in order, the competitors list
sent in the advice request issued last, whether that request has succeeded,
failed or is still in flight.  In particular it equals the list of the most
recent advice request that succeeded whenever only build events (clicks on the
generate button and build settlements) happened since that success.  This holds
whatever the browser does with the values handed to it. -/
theorem build_competitors_are_last_submitted (b : Browser) (s : State) (hr : Reachable b s)
    (theme : String) (p : BuildPayload)
    (hp : (buildClick s theme).buildRequests = s.buildRequests ++ [p]) :
    (∃ u, s.adviceRequests.getLast? = some u ∧ p.competitors = u.competitors) ∧
    ∀ (s0 s1 : State) (o : FetchOutcome) (typeErr : String) (r : UserInput) (es : List Event),
      Reachable b s0 → step b s0 (.adviceResponse o typeErr) = some s1 →
      s1.adviceSucceeded = s0.adviceSucceeded ++ [r] →
      (∀ e ∈ es, isBuildEvent e = true) → run b s1 es = some s →
      p.competitors = r.competitors := by
  obtain ⟨u, hu, hpu⟩ := buildClick_payload s theme p hp
  refine ⟨⟨u, ?_, hpu⟩, ?_⟩
  · rw [← (inv_of_reachable b s hr).lastReq]; exact hu
  · intro s0 s1 o typeErr r es hr0 hstep hsucc hes hrun
    have hinv0 := inv_of_reachable b s0 hr0
    have hstep1 : adviceSettle b s0 o typeErr = some s1 := hstep
    have hlu : s.lastUserInput = s0.lastUserInput := by
      rw [run_build_events_frame b es s1 s hes hrun]
      exact (adviceSettle_frame b s0 s1 o typeErr hstep1).2.2.1
    rcases adviceSettle_succeeded b s0 s1 o typeErr hstep1 with hsame | ⟨req, rest, hfl, hsu⟩
    · rw [hsame] at hsucc
      have := congrArg List.length hsucc
      simp at this
    · have hreq : req = r := by
        rw [hsu] at hsucc
        simpa using hsucc
      have hset : s0.submitting = true := by
        by_contra hc
        have := hinv0.flightClear (by simpa using hc)
        rw [hfl] at this
        cases this
      obtain ⟨v, hv, hfv⟩ := hinv0.flightSet hset
      rw [hfl] at hfv
      have hrv : req = v := (List.cons.inj hfv).1
      rw [hlu, hv] at hu
      have : v = u := by simpa using hu
      rw [hpu, ← this, ← hrv, hreq]

theorem build_competitors_are_last_submitted_witness :
    (∃ u, (sampleReady sampleBrowser).adviceRequests.getLast? = some u ∧
      (buildPayload sampleInput sampleAdvice "dark").competitors = u.competitors) ∧
    (buildPayload sampleInput sampleAdvice "dark").competitors = sampleInput.competitors :=
  have h := build_competitors_are_last_submitted sampleBrowser (sampleReady sampleBrowser)
    (reachable_sampleReady sampleBrowser) "dark" (buildPayload sampleInput sampleAdvice "dark") rfl
  ⟨h.1, h.2 (submitStart State.init sampleForm) (sampleReady sampleBrowser)
    (.response 200 (.ok sampleAdvice)) "" sampleInput []
    (Reachable.step (.submit sampleForm) Reachable.init rfl) rfl rfl
    (fun _ he => nomatch he) rfl⟩

/-- C4 (the claim as stated fails): submit `sampleForm` (competitors `a`, `b`,
`c`), let its advice request succeed, then submit `otherForm` (competitors `z`).
While that second request is in flight, and also after it has failed with
status 500, the state is reachable, the most recent advice request that
succeeded is still the first one, no build request was issued yet, and a click
on the generate button issues a build request whose competitors list is `z`,
not `a`, `b`, `c`.  This happens whatever the browser does with the values
handed to it. -/
theorem build_competitors_follow_later_submit :
    sampleInput.competitors = ["a", "b", "c"] ∧
    (∀ b : Browser, run b State.init laterSubmitTrace = some (stateAfter b laterSubmitTrace) ∧
      Reachable b (stateAfter b laterSubmitTrace) ∧
      (stateAfter b laterSubmitTrace).adviceSucceeded.getLast? = some sampleInput ∧
      (stateAfter b laterSubmitTrace).buildRequests.length = 0 ∧
      (buildClick (stateAfter b laterSubmitTrace) "dark").buildRequests.map
        (fun p => p.competitors) = [["z"]]) ∧
    (∀ b : Browser, run b State.init laterFailedTrace = some (stateAfter b laterFailedTrace) ∧
      Reachable b (stateAfter b laterFailedTrace) ∧
      (stateAfter b laterFailedTrace).adviceSucceeded.getLast? = some sampleInput ∧
      (stateAfter b laterFailedTrace).buildRequests.length = 0 ∧
      (buildClick (stateAfter b laterFailedTrace) "dark").buildRequests.map
        (fun p => p.competitors) = [["z"]]) :=
  ⟨rfl,
    fun b => ⟨rfl, reachable_run b laterSubmitTrace State.init _ Reachable.init rfl, rfl, rfl,
      rfl⟩,
    fun b => ⟨rfl, reachable_run b laterFailedTrace State.init _ Reachable.init rfl, rfl, rfl,
      rfl⟩⟩

end Hybrid
